import Mathlib

/-!
Verification development for the web-util-kit repository.

Two components are embedded over the real numbers:

* `src/src/geom/Matrix2X3.ts` — 2×3 affine-matrix algebra:
  `Matrix2X3Array`, `TRANSFORM_OPTION`, `composeMatrix2X3`,
  `decomposeMatrix2X3`, `multiplyMatrix2X3`, `transformPoint2D`,
  `invertMatrix2X3`, `calcRotateMatrix2X3`, `calcDimensionsMatrix2X3`.
  JavaScript numbers are modelled as real numbers; `Math.atan2`,
  `Math.sin`, `Math.cos`, `Math.tan`, `Math.sqrt`, `Math.abs` become
  `atan2` (defined below from the JS specification of `Math.atan2`),
  `Real.sin`, `Real.cos`, `Real.tan`, `Real.sqrt`, `abs`.

* `src/unnamed/part_000` — the quadtree circle-separation factory
  `collide`.  The JS factory captures the padded bounds of `node` once
  (by value, in the `var r, nx1, nx2, ny1, ny2` declarations) and
  returns a closure that mutates node positions in place.  The
  embedding splits the closure into the captured environment
  (`collide`, returning a `CollideEnv`) and an explicit state-passing
  transition (`collideCall`) that takes the current states of the two
  nodes and returns their new states together with the prune Boolean.
  Object identity of `quad.point` with `node` cannot be observed on
  values, so the identity test `quad.point !== node` is modelled by an
  explicit Boolean argument `same`, and the truthiness test on
  `quad.point` by an `Option`.
-/

open Real

noncomputable section

open Classical in
/-- Model of JavaScript `Math.atan2 y x` (signed zeros and non-finite
inputs aside): the angle of the point `(x, y)`, in `(-π, π]`. -/
def atan2 (y x : ℝ) : ℝ :=
  if 0 < x then arctan (y / x)
  else if x < 0 then
    (if 0 ≤ y then arctan (y / x) + π else arctan (y / x) - π)
  else
    (if 0 < y then π / 2 else if y < 0 then -(π / 2) else 0)

/-- Modelled from the spec: `Point2D` is a pair of real numbers
`(x, y)` (the class itself lives in `src/src/geom/Point2D.ts`, which is
not part of the provided sources; only its construction from two
coordinates and its `x`/`y` fields are used by `Matrix2X3.ts`). -/
@[ext]
structure Point2D where
  x : ℝ
  y : ℝ

/-- `Matrix2X3Array` from `Matrix2X3.ts`: the six entries
`[m11, m12, m21, m22, dx, dy]` (indices `a[0]` … `a[5]` in the source,
named here after the comments on the type definition). -/
@[ext]
structure Matrix2X3Array where
  m11 : ℝ
  m12 : ℝ
  m21 : ℝ
  m22 : ℝ
  dx : ℝ
  dy : ℝ

/-- `TRANSFORM_OPTION` from `Matrix2X3.ts`. -/
@[ext]
structure TRANSFORM_OPTION where
  angle : ℝ
  scaleX : ℝ
  scaleY : ℝ
  skewX : ℝ
  skewY : ℝ
  translateX : ℝ
  translateY : ℝ
  flipX : Bool
  flipY : Bool

/-- `getIdentityMatrix2X3` (source line 24): `[1, 0, 0, 1, 0, 0]`. -/
def getIdentityMatrix2X3 : Matrix2X3Array :=
  ⟨1, 0, 0, 1, 0, 0⟩

/-- `multiplyMatrix2X3` (source lines 103–112), entry by entry. -/
def multiplyMatrix2X3 (a b : Matrix2X3Array) : Matrix2X3Array :=
  ⟨a.m11 * b.m11 + a.m21 * b.m12,
   a.m12 * b.m11 + a.m22 * b.m12,
   a.m11 * b.m21 + a.m21 * b.m22,
   a.m12 * b.m21 + a.m22 * b.m22,
   a.m11 * b.dx + a.m21 * b.dy + a.dx,
   a.m12 * b.dx + a.m22 * b.dy + a.dy⟩

/-- `transformPoint2D` (source lines 123–138).  The source's optional
`ignoreOffset` parameter (default `false`) is passed explicitly. -/
def transformPoint2D (p : Point2D) (t : Matrix2X3Array)
    (ignoreOffset : Bool) : Point2D :=
  if ignoreOffset then
    ⟨t.m11 * p.x + t.m21 * p.y,
     t.m12 * p.x + t.m22 * p.y⟩
  else
    ⟨t.m11 * p.x + t.m21 * p.y + t.dx,
     t.m12 * p.x + t.m22 * p.y + t.dy⟩

/-- `invertMatrix2X3` (source lines 148–155): `a = 1 / det`, linear
part `[a*t[3], -a*t[1], -a*t[2], a*t[0]]`, offset obtained by pushing
`(t[4], t[5])` through the inverted linear part and negating. -/
def invertMatrix2X3 (t : Matrix2X3Array) : Matrix2X3Array :=
  let a := 1 / (t.m11 * t.m22 - t.m12 * t.m21)
  let r : Matrix2X3Array := ⟨a * t.m22, -a * t.m12, -a * t.m21, a * t.m11, 0, 0⟩
  let o := transformPoint2D ⟨t.dx, t.dy⟩ r true
  ⟨r.m11, r.m12, r.m21, r.m22, -o.x, -o.y⟩

open Classical in
/-- `calcRotateMatrix2X3` (source lines 169–176): identity when
`options.angle` is falsy, else `[cos, sin, -sin, cos, 0, 0]`. -/
def calcRotateMatrix2X3 (options : TRANSFORM_OPTION) : Matrix2X3Array :=
  if options.angle = 0 then getIdentityMatrix2X3
  else ⟨Real.cos options.angle, Real.sin options.angle,
        -Real.sin options.angle, Real.cos options.angle, 0, 0⟩

open Classical in
/-- `calcDimensionsMatrix2X3` (source lines 189–214): scale with sign
flips, then right-multiply the skewX shear when `options.skewX` is
truthy, then the skewY shear when `options.skewY` is truthy.  (The
`typeof … === 'undefined'` guards are vacuous in this total model.) -/
def calcDimensionsMatrix2X3 (options : TRANSFORM_OPTION) : Matrix2X3Array :=
  let scaleMatrix : Matrix2X3Array :=
    ⟨if options.flipX then -options.scaleX else options.scaleX, 0,
     0, if options.flipY then -options.scaleY else options.scaleY, 0, 0⟩
  let m1 :=
    if options.skewX = 0 then scaleMatrix
    else multiplyMatrix2X3 scaleMatrix ⟨1, 0, Real.tan options.skewX, 1, 0, 0⟩
  if options.skewY = 0 then m1
  else multiplyMatrix2X3 m1 ⟨1, Real.tan options.skewY, 0, 1, 0, 0⟩

open Classical in
/-- `composeMatrix2X3` (source lines 52–63): start from
`[1, 0, 0, 1, translateX, translateY]`, multiply in the rotation matrix
when `options.angle` is truthy, and the dimensions matrix when any of
`scaleX !== 1`, `scaleY !== 1`, `skewX`, `skewY`, `flipX`, `flipY`
holds.  (`options.translateX || 0` collapses to `translateX` over ℝ.) -/
def composeMatrix2X3 (options : TRANSFORM_OPTION) : Matrix2X3Array :=
  let matrix0 : Matrix2X3Array :=
    ⟨1, 0, 0, 1, options.translateX, options.translateY⟩
  let matrix1 :=
    if options.angle = 0 then matrix0
    else multiplyMatrix2X3 matrix0 (calcRotateMatrix2X3 options)
  if options.scaleX ≠ 1 ∨ options.scaleY ≠ 1 ∨ options.skewX ≠ 0 ∨
     options.skewY ≠ 0 ∨ options.flipX ∨ options.flipY then
    multiplyMatrix2X3 matrix1 (calcDimensionsMatrix2X3 options)
  else matrix1

/-- Specification-side variant of `composeMatrix2X3` for the
refinement claim about its conditional skips: both building blocks are
multiplied in unconditionally. -/
def composeMatrix2X3Uncond (options : TRANSFORM_OPTION) : Matrix2X3Array :=
  multiplyMatrix2X3
    (multiplyMatrix2X3
      ⟨1, 0, 0, 1, options.translateX, options.translateY⟩
      (calcRotateMatrix2X3 options))
    (calcDimensionsMatrix2X3 options)

open Classical in
/-- `decomposeMatrix2X3` (source lines 75–92). -/
def decomposeMatrix2X3 (a : Matrix2X3Array) : TRANSFORM_OPTION :=
  let angle := atan2 a.m12 a.m11
  let scaleX := a.m12 / Real.sin angle
  let scaleY := (a.m11 * a.m22 - a.m21 * a.m12) / scaleX
  let skewX := atan2 (a.m11 * a.m21 + a.m12 * a.m22) (a.m11 ^ 2 + a.m12 ^ 2)
  ⟨angle, |scaleX|, |scaleY|, skewX, 0,
   a.dx, a.dy,
   if scaleX > 0 then false else true,
   if scaleY > 0 then false else true⟩

/-- `CircleNode` from `src/unnamed/part_000`. -/
@[ext]
structure CircleNode where
  x : ℝ
  y : ℝ
  radius : ℝ

/-- The environment captured by the closure returned by `collide`
(source lines 17–21): `r = node.radius + 16`, `nx1 = node.x - r`,
`nx2 = node.x + r`, `ny1 = node.y - r`, `ny2 = node.y + r`. -/
structure CollideEnv where
  nx1 : ℝ
  nx2 : ℝ
  ny1 : ℝ
  ny2 : ℝ

/-- `collide` (source lines 16–21): the factory's capture step. -/
def collide (node : CircleNode) : CollideEnv :=
  ⟨node.x - (node.radius + 16), node.x + (node.radius + 16),
   node.y - (node.radius + 16), node.y + (node.radius + 16)⟩

/-- The distance `l = Math.sqrt (x*x + y*y)` between the centers of
`node` and `quad.point` (source lines 25–26). -/
def sepDist (node p : CircleNode) : ℝ :=
  Real.sqrt ((node.x - p.x) * (node.x - p.x) + (node.y - p.y) * (node.y - p.y))

open Classical in
/-- The separation step of the closure body (source lines 22–36): when
`l < r` with `r = node.radius + quad.point.radius`, both centers are
moved by `±(x, y) * ((l - r) / l * 0.5)`; the source's running
variables `x *= l`, `y *= l` are inlined. -/
def collideSeparate (node p : CircleNode) : CircleNode × CircleNode :=
  if sepDist node p < node.radius + p.radius then
    (⟨node.x - (node.x - p.x) *
        ((sepDist node p - (node.radius + p.radius)) / sepDist node p * 0.5),
      node.y - (node.y - p.y) *
        ((sepDist node p - (node.radius + p.radius)) / sepDist node p * 0.5),
      node.radius⟩,
     ⟨p.x + (node.x - p.x) *
        ((sepDist node p - (node.radius + p.radius)) / sepDist node p * 0.5),
      p.y + (node.y - p.y) *
        ((sepDist node p - (node.radius + p.radius)) / sepDist node p * 0.5),
      p.radius⟩)
  else (node, p)

open Classical in
/-- The prune expression returned by the closure (source line 37):
`x1 > nx2 || x2 < nx1 || y1 > ny2 || y2 < ny1` over the captured
environment. -/
def collidePrune (env : CollideEnv) (x1 y1 x2 y2 : ℝ) : Bool :=
  if x1 > env.nx2 ∨ x2 < env.nx1 ∨ y1 > env.ny2 ∨ y2 < env.ny1 then true
  else false

/-- One invocation of the closure returned by `collide` (source lines
22–37): `env` is the captured environment, `node` the current state of
the captured node, `quadPoint` the current state of `quad.point`
(`none` when `quad.point` is falsy), and `same` the result of the
object-identity test `quad.point === node`.  Returns the new states of
the two nodes and the prune Boolean. -/
def collideCall (env : CollideEnv) (node : CircleNode)
    (quadPoint : Option CircleNode) (same : Bool)
    (x1 y1 x2 y2 : ℝ) : (CircleNode × Option CircleNode) × Bool :=
  match quadPoint, same with
  | some p, false =>
      (((collideSeparate node p).1, some (collideSeparate node p).2),
       collidePrune env x1 y1 x2 y2)
  | some p, true => ((node, some p), collidePrune env x1 y1 x2 y2)
  | none, _ => ((node, none), collidePrune env x1 y1 x2 y2)

/-! ### Shared helper lemmas -/

lemma multiplyMatrix2X3_id_right (m : Matrix2X3Array) :
    multiplyMatrix2X3 m getIdentityMatrix2X3 = m := by
  simp [multiplyMatrix2X3, getIdentityMatrix2X3]

lemma multiplyMatrix2X3_id_left (m : Matrix2X3Array) :
    multiplyMatrix2X3 getIdentityMatrix2X3 m = m := by
  simp [multiplyMatrix2X3, getIdentityMatrix2X3]

lemma calcDimensionsMatrix2X3_id (o : TRANSFORM_OPTION)
    (h1 : o.scaleX = 1) (h2 : o.scaleY = 1) (h3 : o.skewX = 0)
    (h4 : o.skewY = 0) (h5 : o.flipX = false) (h6 : o.flipY = false) :
    calcDimensionsMatrix2X3 o = getIdentityMatrix2X3 := by
  simp [calcDimensionsMatrix2X3, h1, h2, h3, h4, h5, h6, getIdentityMatrix2X3]

lemma multiplyMatrix2X3_assoc (a b c : Matrix2X3Array) :
    multiplyMatrix2X3 (multiplyMatrix2X3 a b) c =
      multiplyMatrix2X3 a (multiplyMatrix2X3 b c) := by
  simp only [multiplyMatrix2X3]
  ext <;> ring

lemma transformPoint2D_mul (a b : Matrix2X3Array) (p : Point2D) :
    transformPoint2D p (multiplyMatrix2X3 a b) false =
      transformPoint2D (transformPoint2D p b false) a false := by
  simp only [transformPoint2D, multiplyMatrix2X3, Bool.false_eq_true, if_false]
  ext <;> ring

lemma transformPoint2D_id (p : Point2D) :
    transformPoint2D p getIdentityMatrix2X3 false = p := by
  simp [transformPoint2D, getIdentityMatrix2X3]

lemma invertMatrix2X3_mul_cancel (t : Matrix2X3Array)
    (h : t.m11 * t.m22 - t.m12 * t.m21 ≠ 0) :
    multiplyMatrix2X3 (invertMatrix2X3 t) t = getIdentityMatrix2X3 := by
  have h' : t.m22 * t.m11 - t.m12 * t.m21 ≠ 0 := by
    intro hc; exact h (by linarith [hc])
  ext <;> simp only [invertMatrix2X3, transformPoint2D, if_true,
    multiplyMatrix2X3, getIdentityMatrix2X3] <;> field_simp <;> ring

lemma det_invertMatrix2X3 (t : Matrix2X3Array)
    (h : t.m11 * t.m22 - t.m12 * t.m21 ≠ 0) :
    (invertMatrix2X3 t).m11 * (invertMatrix2X3 t).m22 -
        (invertMatrix2X3 t).m12 * (invertMatrix2X3 t).m21 =
      1 / (t.m11 * t.m22 - t.m12 * t.m21) := by
  simp only [invertMatrix2X3]
  field_simp
  exact Or.inl (mul_comm _ _)

lemma sepDist_nonneg (n p : CircleNode) : 0 ≤ sepDist n p :=
  Real.sqrt_nonneg _

lemma sepDist_sq (n p : CircleNode) :
    (n.x - p.x) ^ 2 + (n.y - p.y) ^ 2 = sepDist n p ^ 2 := by
  unfold sepDist
  rw [show (n.x - p.x) * (n.x - p.x) + (n.y - p.y) * (n.y - p.y) =
        (n.x - p.x) ^ 2 + (n.y - p.y) ^ 2 from by ring]
  exact (Real.sq_sqrt (by positivity)).symm

lemma sepDist_eq_of_sq (a b : CircleNode) (d : ℝ) (hd : 0 ≤ d)
    (h : (a.x - b.x) ^ 2 + (a.y - b.y) ^ 2 = d ^ 2) : sepDist a b = d := by
  unfold sepDist
  rw [show (a.x - b.x) * (a.x - b.x) + (a.y - b.y) * (a.y - b.y) =
        (a.x - b.x) ^ 2 + (a.y - b.y) ^ 2 from by ring, h]
  exact Real.sqrt_sq hd

lemma collideSeparate_of_lt (n p : CircleNode)
    (hr : sepDist n p < n.radius + p.radius) :
    collideSeparate n p =
      (⟨n.x - (n.x - p.x) *
          ((sepDist n p - (n.radius + p.radius)) / sepDist n p * 0.5),
        n.y - (n.y - p.y) *
          ((sepDist n p - (n.radius + p.radius)) / sepDist n p * 0.5),
        n.radius⟩,
       ⟨p.x + (n.x - p.x) *
          ((sepDist n p - (n.radius + p.radius)) / sepDist n p * 0.5),
        p.y + (n.y - p.y) *
          ((sepDist n p - (n.radius + p.radius)) / sepDist n p * 0.5),
        p.radius⟩) := by
  unfold collideSeparate
  rw [if_pos hr]

lemma collideSeparate_sepDist (n p : CircleNode)
    (hl : 0 < sepDist n p) (hr : sepDist n p < n.radius + p.radius) :
    sepDist (collideSeparate n p).1 (collideSeparate n p).2 =
      n.radius + p.radius := by
  have hl' : sepDist n p ≠ 0 := ne_of_gt hl
  rw [collideSeparate_of_lt n p hr]
  apply sepDist_eq_of_sq _ _ _ (by linarith)
  dsimp only
  have e1 : (n.x - (n.x - p.x) *
        ((sepDist n p - (n.radius + p.radius)) / sepDist n p * 0.5) -
      (p.x + (n.x - p.x) *
        ((sepDist n p - (n.radius + p.radius)) / sepDist n p * 0.5))) ^ 2 +
      (n.y - (n.y - p.y) *
        ((sepDist n p - (n.radius + p.radius)) / sepDist n p * 0.5) -
      (p.y + (n.y - p.y) *
        ((sepDist n p - (n.radius + p.radius)) / sepDist n p * 0.5))) ^ 2 =
      ((n.x - p.x) ^ 2 + (n.y - p.y) ^ 2) *
        (1 - (sepDist n p - (n.radius + p.radius)) / sepDist n p) ^ 2 := by
    ring
  rw [e1, sepDist_sq]
  field_simp

lemma collideCall_snd (env : CollideEnv) (node : CircleNode)
    (quadPoint : Option CircleNode) (same : Bool) (x1 y1 x2 y2 : ℝ) :
    (collideCall env node quadPoint same x1 y1 x2 y2).2 =
      collidePrune env x1 y1 x2 y2 := by
  cases quadPoint <;> cases same <;> rfl

lemma composeMatrix2X3_uncond_eq (o : TRANSFORM_OPTION) :
    composeMatrix2X3 o = composeMatrix2X3Uncond o := by
  simp only [composeMatrix2X3, composeMatrix2X3Uncond]
  by_cases ha : o.angle = 0
  · rw [if_pos ha]
    have hrot : calcRotateMatrix2X3 o = getIdentityMatrix2X3 := by
      simp [calcRotateMatrix2X3, ha]
    rw [hrot, multiplyMatrix2X3_id_right]
    by_cases hd : o.scaleX ≠ 1 ∨ o.scaleY ≠ 1 ∨ o.skewX ≠ 0 ∨
        o.skewY ≠ 0 ∨ o.flipX ∨ o.flipY
    · rw [if_pos hd]
    · rw [if_neg hd]
      push_neg at hd
      obtain ⟨h1, h2, h3, h4, h5, h6⟩ := hd
      rw [calcDimensionsMatrix2X3_id o h1 h2 h3 h4
            (by simpa using h5) (by simpa using h6),
          multiplyMatrix2X3_id_right]
  · rw [if_neg ha]
    by_cases hd : o.scaleX ≠ 1 ∨ o.scaleY ≠ 1 ∨ o.skewX ≠ 0 ∨
        o.skewY ≠ 0 ∨ o.flipX ∨ o.flipY
    · rw [if_pos hd]
    · rw [if_neg hd]
      push_neg at hd
      obtain ⟨h1, h2, h3, h4, h5, h6⟩ := hd
      rw [calcDimensionsMatrix2X3_id o h1 h2 h3 h4
            (by simpa using h5) (by simpa using h6),
          multiplyMatrix2X3_id_right]

lemma atan2_pos_den (y c : ℝ) (hc : 0 < c) : atan2 y c = arctan (y / c) := by
  rw [atan2, if_pos hc]

lemma atan2_mul_cos_sin (k θ : ℝ) (hk : 0 < k)
    (h1 : -π < θ) (h2 : θ ≤ π) :
    atan2 (k * Real.sin θ) (k * Real.cos θ) = θ := by
  have hk' : k ≠ 0 := ne_of_gt hk
  rcases lt_trichotomy θ (π / 2) with hB | hB | hB
  · rcases lt_trichotomy θ (-(π / 2)) with hC | hC | hC
    · have hcosneg : Real.cos (-θ) < 0 :=
        Real.cos_neg_of_pi_div_two_lt_of_lt (by linarith)
          (by linarith [Real.pi_pos])
      have hcos : Real.cos θ < 0 := by rwa [Real.cos_neg] at hcosneg
      have hsin : Real.sin θ < 0 :=
        Real.sin_neg_of_neg_of_neg_pi_lt (by linarith [Real.pi_pos]) h1
      have hx : k * Real.cos θ < 0 := mul_neg_of_pos_of_neg hk hcos
      have hy : k * Real.sin θ < 0 := mul_neg_of_pos_of_neg hk hsin
      rw [atan2, if_neg (not_lt.2 (le_of_lt hx)), if_pos hx,
        if_neg (not_le.2 hy)]
      have hcos' : Real.cos θ ≠ 0 := ne_of_lt hcos
      have hq : k * Real.sin θ / (k * Real.cos θ) = Real.tan θ := by
        rw [Real.tan_eq_sin_div_cos]
        field_simp
        ring
      rw [hq, ← Real.tan_periodic θ,
        Real.arctan_tan (by linarith) (by linarith)]
      ring
    · rw [hC, atan2]
      rw [Real.cos_neg, Real.cos_pi_div_two, Real.sin_neg, Real.sin_pi_div_two]
      simp [hk, lt_irrefl, not_lt.2 (le_of_lt hk)]
    · have hcos : 0 < Real.cos θ := Real.cos_pos_of_mem_Ioo ⟨hC, hB⟩
      have hx : 0 < k * Real.cos θ := mul_pos hk hcos
      rw [atan2, if_pos hx]
      have hcos' : Real.cos θ ≠ 0 := ne_of_gt hcos
      have hq : k * Real.sin θ / (k * Real.cos θ) = Real.tan θ := by
        rw [Real.tan_eq_sin_div_cos]
        field_simp
        ring
      rw [hq, Real.arctan_tan hC hB]
  · rw [hB, atan2]
    rw [Real.cos_pi_div_two, Real.sin_pi_div_two]
    simp [hk, lt_irrefl]
  · have hcos : Real.cos θ < 0 :=
      Real.cos_neg_of_pi_div_two_lt_of_lt hB (by linarith [Real.pi_pos])
    have hsin : 0 ≤ Real.sin θ :=
      Real.sin_nonneg_of_nonneg_of_le_pi (by linarith [Real.pi_pos]) h2
    have hx : k * Real.cos θ < 0 := mul_neg_of_pos_of_neg hk hcos
    have hy : 0 ≤ k * Real.sin θ := mul_nonneg (le_of_lt hk) hsin
    rw [atan2, if_neg (not_lt.2 (le_of_lt hx)), if_pos hx, if_pos hy]
    have hcos' : Real.cos θ ≠ 0 := ne_of_lt hcos
    have hq : k * Real.sin θ / (k * Real.cos θ) = Real.tan θ := by
      rw [Real.tan_eq_sin_div_cos]
      field_simp
      ring
    rw [hq, ← Real.tan_periodic.sub_eq θ,
      Real.arctan_tan (by linarith) (by linarith)]
    ring

lemma calcDimensionsMatrix2X3_explicit (o : TRANSFORM_OPTION)
    (hY : o.skewY = 0) :
    calcDimensionsMatrix2X3 o =
      ⟨(if o.flipX then -o.scaleX else o.scaleX), 0,
       (if o.flipX then -o.scaleX else o.scaleX) * Real.tan o.skewX,
       (if o.flipY then -o.scaleY else o.scaleY), 0, 0⟩ := by
  by_cases hX : o.skewX = 0
  · ext <;> simp [calcDimensionsMatrix2X3, hY, hX, Real.tan_zero]
  · ext <;> simp [calcDimensionsMatrix2X3, hY, hX, multiplyMatrix2X3]

lemma composeMatrix2X3_explicit (o : TRANSFORM_OPTION)
    (hY : o.skewY = 0) (hA : o.angle ≠ 0) :
    composeMatrix2X3 o =
      ⟨(if o.flipX then -o.scaleX else o.scaleX) * Real.cos o.angle,
       (if o.flipX then -o.scaleX else o.scaleX) * Real.sin o.angle,
       (if o.flipX then -o.scaleX else o.scaleX) * Real.cos o.angle *
           Real.tan o.skewX -
         (if o.flipY then -o.scaleY else o.scaleY) * Real.sin o.angle,
       (if o.flipX then -o.scaleX else o.scaleX) * Real.sin o.angle *
           Real.tan o.skewX +
         (if o.flipY then -o.scaleY else o.scaleY) * Real.cos o.angle,
       o.translateX, o.translateY⟩ := by
  rw [composeMatrix2X3_uncond_eq]
  unfold composeMatrix2X3Uncond
  rw [calcDimensionsMatrix2X3_explicit o hY]
  unfold calcRotateMatrix2X3
  rw [if_neg hA]
  ext <;> simp [multiplyMatrix2X3] <;> split_ifs <;> ring

lemma decomposeMatrix2X3_explicit (sx sy θ φ tx ty : ℝ)
    (hsx : 0 < sx) (ha1 : -π < θ) (ha2 : θ < π) (ha0 : θ ≠ 0)
    (hk1 : -(π / 2) < φ) (hk2 : φ < π / 2) :
    decomposeMatrix2X3
      ⟨sx * Real.cos θ, sx * Real.sin θ,
       sx * Real.cos θ * Real.tan φ - sy * Real.sin θ,
       sx * Real.sin θ * Real.tan φ + sy * Real.cos θ, tx, ty⟩ =
      ⟨θ, sx, |sy|, φ, 0, tx, ty, false, if sy > 0 then false else true⟩ := by
  have hsx' : sx ≠ 0 := ne_of_gt hsx
  have hsin0 : Real.sin θ ≠ 0 := fun h =>
    ha0 ((Real.sin_eq_zero_iff_of_lt_of_lt ha1 ha2).1 h)
  have hang : atan2 (sx * Real.sin θ) (sx * Real.cos θ) = θ :=
    atan2_mul_cos_sin sx θ hsx ha1 (le_of_lt ha2)
  unfold decomposeMatrix2X3
  dsimp only
  rw [hang]
  have hsX : sx * Real.sin θ / Real.sin θ = sx := by field_simp
  rw [hsX]
  have hdet : sx * Real.cos θ * (sx * Real.sin θ * Real.tan φ + sy * Real.cos θ) -
      (sx * Real.cos θ * Real.tan φ - sy * Real.sin θ) * (sx * Real.sin θ) =
      sx * sy := by
    linear_combination (sx * sy) * Real.sin_sq_add_cos_sq θ
  rw [hdet]
  have hsY : sx * sy / sx = sy := by field_simp
  rw [hsY]
  have hnum : sx * Real.cos θ * (sx * Real.cos θ * Real.tan φ - sy * Real.sin θ) +
      sx * Real.sin θ * (sx * Real.sin θ * Real.tan φ + sy * Real.cos θ) =
      sx ^ 2 * Real.tan φ := by
    linear_combination (sx ^ 2 * Real.tan φ) * Real.sin_sq_add_cos_sq θ
  have hden : (sx * Real.cos θ) ^ 2 + (sx * Real.sin θ) ^ 2 = sx ^ 2 := by
    linear_combination (sx ^ 2) * Real.sin_sq_add_cos_sq θ
  rw [hnum, hden, atan2_pos_den _ _ (pow_pos hsx 2)]
  have htan : sx ^ 2 * Real.tan φ / sx ^ 2 = Real.tan φ := by field_simp
  rw [htan, Real.arctan_tan hk1 hk2, abs_of_pos hsx, if_pos hsx]

/-! ### Claim theorems -/

/-- Claim C6: for all matrices `a`, `b` and every point `p`, applying
`multiplyMatrix2X3 a b` to `p` equals applying `b` first and then `a`. -/
theorem transformPoint2D_multiplyMatrix2X3 (a b : Matrix2X3Array) (p : Point2D) :
    transformPoint2D p (multiplyMatrix2X3 a b) false =
      transformPoint2D (transformPoint2D p b false) a false := by
  simp only [transformPoint2D, multiplyMatrix2X3, Bool.false_eq_true, if_false]
  ext <;> ring

/-- Claim C7: `multiplyMatrix2X3` is associative, `getIdentityMatrix2X3`
is a two-sided identity for it, and it is not commutative. -/
theorem multiplyMatrix2X3_assoc_id_not_comm :
    (∀ a b c : Matrix2X3Array,
        multiplyMatrix2X3 (multiplyMatrix2X3 a b) c =
          multiplyMatrix2X3 a (multiplyMatrix2X3 b c)) ∧
    (∀ m : Matrix2X3Array,
        multiplyMatrix2X3 m getIdentityMatrix2X3 = m ∧
          multiplyMatrix2X3 getIdentityMatrix2X3 m = m) ∧
    (∃ a b : Matrix2X3Array,
        multiplyMatrix2X3 a b ≠ multiplyMatrix2X3 b a) := by
  refine ⟨?_, ?_, ?_⟩
  · intro a b c
    simp only [multiplyMatrix2X3]
    ext <;> ring
  · intro m
    exact ⟨multiplyMatrix2X3_id_right m, multiplyMatrix2X3_id_left m⟩
  · refine ⟨⟨1, 0, 0, 1, 1, 0⟩, ⟨2, 0, 0, 1, 0, 0⟩, ?_⟩
    intro h
    have hdx := congrArg Matrix2X3Array.dx h
    simp [multiplyMatrix2X3] at hdx

/-- Claim C8: the conditional skips inside `composeMatrix2X3` have no
semantic effect: for every input the produced matrix equals the one
obtained by unconditionally multiplying in both the rotation matrix and
the dimensions matrix.  In particular this holds for inputs with
`angle = 0` and for inputs with identity scale, skew, and flips. -/
theorem composeMatrix2X3_eq_uncond (o : TRANSFORM_OPTION) :
    composeMatrix2X3 o = composeMatrix2X3Uncond o :=
  composeMatrix2X3_uncond_eq o

/-- Claim C5: for every non-singular matrix `m` (that is,
`m11 * m22 - m12 * m21 ≠ 0`), inverting twice recovers `m`, and for
every point `p`, applying `m` and then `invertMatrix2X3 m` recovers
`p`.  Over the real-number model the recovery is exact. -/
theorem invertMatrix2X3_roundtrip (m : Matrix2X3Array)
    (h : m.m11 * m.m22 - m.m12 * m.m21 ≠ 0) :
    invertMatrix2X3 (invertMatrix2X3 m) = m ∧
    ∀ p : Point2D,
      transformPoint2D (transformPoint2D p m false) (invertMatrix2X3 m) false = p := by
  have h2 : (invertMatrix2X3 m).m11 * (invertMatrix2X3 m).m22 -
      (invertMatrix2X3 m).m12 * (invertMatrix2X3 m).m21 ≠ 0 := by
    rw [det_invertMatrix2X3 m h]
    exact one_div_ne_zero h
  constructor
  · calc invertMatrix2X3 (invertMatrix2X3 m)
        = multiplyMatrix2X3 (invertMatrix2X3 (invertMatrix2X3 m))
            getIdentityMatrix2X3 := (multiplyMatrix2X3_id_right _).symm
      _ = multiplyMatrix2X3 (invertMatrix2X3 (invertMatrix2X3 m))
            (multiplyMatrix2X3 (invertMatrix2X3 m) m) := by
          rw [invertMatrix2X3_mul_cancel m h]
      _ = multiplyMatrix2X3
            (multiplyMatrix2X3 (invertMatrix2X3 (invertMatrix2X3 m))
              (invertMatrix2X3 m)) m := (multiplyMatrix2X3_assoc _ _ _).symm
      _ = multiplyMatrix2X3 getIdentityMatrix2X3 m := by
          rw [invertMatrix2X3_mul_cancel (invertMatrix2X3 m) h2]
      _ = m := multiplyMatrix2X3_id_left m
  · intro p
    rw [← transformPoint2D_mul, invertMatrix2X3_mul_cancel m h,
      transformPoint2D_id]

/-- Witness for claim C5 at the concrete non-singular matrix
`(2, 0, 0, 1, 5, 0)` and the point `(1, 1)`. -/
theorem invertMatrix2X3_roundtrip_witness :
    ((Matrix2X3Array.mk 2 0 0 1 5 0).m11 * (Matrix2X3Array.mk 2 0 0 1 5 0).m22 -
        (Matrix2X3Array.mk 2 0 0 1 5 0).m12 * (Matrix2X3Array.mk 2 0 0 1 5 0).m21 ≠ 0) ∧
    invertMatrix2X3 (invertMatrix2X3 (Matrix2X3Array.mk 2 0 0 1 5 0)) =
        Matrix2X3Array.mk 2 0 0 1 5 0 ∧
    transformPoint2D
        (transformPoint2D ⟨1, 1⟩ (Matrix2X3Array.mk 2 0 0 1 5 0) false)
        (invertMatrix2X3 (Matrix2X3Array.mk 2 0 0 1 5 0)) false = ⟨1, 1⟩ :=
  ⟨by norm_num,
   (invertMatrix2X3_roundtrip (Matrix2X3Array.mk 2 0 0 1 5 0) (by norm_num)).1,
   (invertMatrix2X3_roundtrip (Matrix2X3Array.mk 2 0 0 1 5 0) (by norm_num)).2 ⟨1, 1⟩⟩

/-- Claim C10: the prune Boolean returned by a `collide node` closure
depends only on the rectangle arguments and on the environment captured
when `collide` was invoked; the current states of the captured node and
of the quad's node — including states produced by earlier calls of the
closure — never change it. -/
theorem collideCall_prune_independent_of_state (n0 : CircleNode)
    (cur1 cur2 : CircleNode) (qp1 qp2 : Option CircleNode)
    (s1 s2 : Bool) (x1 y1 x2 y2 : ℝ) :
    (collideCall (collide n0) cur1 qp1 s1 x1 y1 x2 y2).2 =
      (collideCall (collide n0) cur2 qp2 s2 x1 y1 x2 y2).2 := by
  rw [collideCall_snd, collideCall_snd]

/-- Claim C3: the closure returned by `collide node` returns `true`
exactly when the query rectangle `[x1, x2] × [y1, y2]` lies entirely
outside the padded square
`[node.x - r, node.x + r] × [node.y - r, node.y + r]`,
`r = node.radius + 16` (for genuine rectangles, `x1 ≤ x2` and
`y1 ≤ y2`, and a circle of nonnegative radius). -/
theorem collideCall_prune_iff (node cur : CircleNode)
    (qp : Option CircleNode) (s : Bool) (x1 y1 x2 y2 : ℝ)
    (hrad : 0 ≤ node.radius) (hx : x1 ≤ x2) (hy : y1 ≤ y2) :
    (collideCall (collide node) cur qp s x1 y1 x2 y2).2 = true ↔
      ∀ px py : ℝ, x1 ≤ px → px ≤ x2 → y1 ≤ py → py ≤ y2 →
        ¬(node.x - (node.radius + 16) ≤ px ∧ px ≤ node.x + (node.radius + 16) ∧
          node.y - (node.radius + 16) ≤ py ∧ py ≤ node.y + (node.radius + 16)) := by
  rw [collideCall_snd]
  unfold collidePrune collide
  split_ifs with hc
  · simp only [true_iff]
    intro px py h1 h2 h3 h4 hmem
    obtain ⟨g1, g2, g3, g4⟩ := hmem
    rcases hc with hc | hc | hc | hc <;> simp only at hc <;> linarith
  · simp only [false_iff, not_forall]
    push_neg at hc
    obtain ⟨c1, c2, c3, c4⟩ := hc
    simp only at c1 c2 c3 c4
    refine ⟨max x1 (node.x - (node.radius + 16)),
            max y1 (node.y - (node.radius + 16)),
            le_max_left _ _, max_le hx c2, le_max_left _ _, max_le hy c4, ?_⟩
    push_neg
    refine ⟨le_max_right _ _, max_le c1 (by linarith), le_max_right _ _,
      max_le c3 (by linarith)⟩

/-- Witness for claim C3: node at the origin with radius `0`, query
rectangle `[17, 18] × [0, 1]` lying entirely at `x > 16`; the prune
predicate evaluates to `true`. -/
theorem collideCall_prune_iff_witness :
    (0 ≤ (CircleNode.mk 0 0 0).radius ∧ (17 : ℝ) ≤ 18 ∧ (0 : ℝ) ≤ 1) ∧
    (collideCall (collide (CircleNode.mk 0 0 0)) (CircleNode.mk 0 0 0)
        none false 17 0 18 1).2 = true := by
  refine ⟨⟨le_refl _, by norm_num, by norm_num⟩, ?_⟩
  rw [collideCall_prune_iff (CircleNode.mk 0 0 0) (CircleNode.mk 0 0 0)
        none false 17 0 18 1 (le_refl _) (by norm_num) (by norm_num)]
  intro px py h1 h2 h3 h4 hmem
  obtain ⟨g1, g2, g3, g4⟩ := hmem
  simp only at g1 g2 g3 g4
  linarith

/-- Claim C2: invoking the closure on a distinct node whose center
exactly coincides with the captured node's center while the circles
overlap reaches the separation ratio `(l - r) / l` with `l = 0`: the
overlap guard `l < r` is taken and the divisor `l` is zero, so the code
divides by zero (in JavaScript float semantics `(0 - r) / 0 * 0.5`
is `-Infinity` and `x *= l` then yields `0 * -Infinity = NaN`, which is
written into both nodes' positions); no tie-break is applied.  Shown
here at two coincident circles of radius `1` at the origin. -/
theorem collideSeparate_coincident_zero_divisor :
    sepDist (CircleNode.mk 0 0 1) (CircleNode.mk 0 0 1) = 0 ∧
    sepDist (CircleNode.mk 0 0 1) (CircleNode.mk 0 0 1) <
      (CircleNode.mk 0 0 1).radius + (CircleNode.mk 0 0 1).radius := by
  have h0 : sepDist (CircleNode.mk 0 0 1) (CircleNode.mk 0 0 1) = 0 :=
    sepDist_eq_of_sq _ _ 0 le_rfl (by norm_num)
  exact ⟨h0, by rw [h0]; norm_num⟩

/-- Claim C4: on an overlapping pair with `0 < l < r`, one call shifts
the two centers apart symmetrically along the separating axis: the
centers move by equal and opposite displacements; the captured node's
displacement is the center-difference vector `node - other` scaled by
the strictly positive factor `(r - l) / (2l)` (that is, by
`-((l - r) / l * 0.5)`), so `node` moves away from `other` and `other`
away from `node`; each displacement has magnitude `(r - l) / 2`; and
the distance between the centers strictly increases. -/
theorem collideSeparate_symmetric (n p : CircleNode)
    (hl : 0 < sepDist n p) (hr : sepDist n p < n.radius + p.radius) :
    ((collideSeparate n p).1.x - n.x = -((collideSeparate n p).2.x - p.x) ∧
     (collideSeparate n p).1.y - n.y = -((collideSeparate n p).2.y - p.y)) ∧
    ((collideSeparate n p).1.x - n.x =
        (n.x - p.x) *
          ((n.radius + p.radius - sepDist n p) / (2 * sepDist n p)) ∧
     (collideSeparate n p).1.y - n.y =
        (n.y - p.y) *
          ((n.radius + p.radius - sepDist n p) / (2 * sepDist n p)) ∧
     0 < (n.radius + p.radius - sepDist n p) / (2 * sepDist n p)) ∧
    Real.sqrt (((collideSeparate n p).1.x - n.x) ^ 2 +
        ((collideSeparate n p).1.y - n.y) ^ 2) =
      (n.radius + p.radius - sepDist n p) / 2 ∧
    sepDist n p < sepDist (collideSeparate n p).1 (collideSeparate n p).2 := by
  have hl' : sepDist n p ≠ 0 := ne_of_gt hl
  have hscale : 0 < (n.radius + p.radius - sepDist n p) / (2 * sepDist n p) :=
    div_pos (by linarith) (by linarith)
  have hinc : sepDist n p <
      sepDist (collideSeparate n p).1 (collideSeparate n p).2 := by
    rw [collideSeparate_sepDist n p hl hr]
    exact hr
  refine ⟨?_, ⟨?_, ?_, hscale⟩, ?_, hinc⟩
  · rw [collideSeparate_of_lt n p hr]
    exact ⟨by ring, by ring⟩
  · rw [collideSeparate_of_lt n p hr]
    dsimp only
    field_simp
    ring
  · rw [collideSeparate_of_lt n p hr]
    dsimp only
    field_simp
    ring
  · rw [collideSeparate_of_lt n p hr]
    dsimp only
    have key : (n.x - (n.x - p.x) *
          ((sepDist n p - (n.radius + p.radius)) / sepDist n p * 0.5) - n.x) ^ 2 +
        (n.y - (n.y - p.y) *
          ((sepDist n p - (n.radius + p.radius)) / sepDist n p * 0.5) - n.y) ^ 2 =
        ((n.radius + p.radius - sepDist n p) / 2) ^ 2 := by
      have e1 : (n.x - (n.x - p.x) *
            ((sepDist n p - (n.radius + p.radius)) / sepDist n p * 0.5) - n.x) ^ 2 +
          (n.y - (n.y - p.y) *
            ((sepDist n p - (n.radius + p.radius)) / sepDist n p * 0.5) - n.y) ^ 2 =
          ((n.x - p.x) ^ 2 + (n.y - p.y) ^ 2) *
            ((sepDist n p - (n.radius + p.radius)) / sepDist n p * 0.5) ^ 2 := by
        ring
      rw [e1, sepDist_sq]
      field_simp
      ring
    rw [key]
    exact Real.sqrt_sq (by linarith)

/-- Witness for claim C4 at the circles `(0, 0, radius 10)` and
`(15, 0, radius 10)`: distance `15`, radius sum `20`; the call moves
the centers apart along the x-axis and increases their distance. -/
theorem collideSeparate_symmetric_witness :
    (0 < sepDist (CircleNode.mk 0 0 10) (CircleNode.mk 15 0 10) ∧
     sepDist (CircleNode.mk 0 0 10) (CircleNode.mk 15 0 10) <
       (CircleNode.mk 0 0 10).radius + (CircleNode.mk 15 0 10).radius) ∧
    (((collideSeparate (CircleNode.mk 0 0 10) (CircleNode.mk 15 0 10)).1.x - (CircleNode.mk 0 0 10).x =
        -((collideSeparate (CircleNode.mk 0 0 10) (CircleNode.mk 15 0 10)).2.x - (CircleNode.mk 15 0 10).x) ∧
      (collideSeparate (CircleNode.mk 0 0 10) (CircleNode.mk 15 0 10)).1.y - (CircleNode.mk 0 0 10).y =
        -((collideSeparate (CircleNode.mk 0 0 10) (CircleNode.mk 15 0 10)).2.y - (CircleNode.mk 15 0 10).y)) ∧
     ((collideSeparate (CircleNode.mk 0 0 10) (CircleNode.mk 15 0 10)).1.x - (CircleNode.mk 0 0 10).x =
        ((CircleNode.mk 0 0 10).x - (CircleNode.mk 15 0 10).x) *
          (((CircleNode.mk 0 0 10).radius + (CircleNode.mk 15 0 10).radius - sepDist (CircleNode.mk 0 0 10) (CircleNode.mk 15 0 10)) / (2 * sepDist (CircleNode.mk 0 0 10) (CircleNode.mk 15 0 10))) ∧
      (collideSeparate (CircleNode.mk 0 0 10) (CircleNode.mk 15 0 10)).1.y - (CircleNode.mk 0 0 10).y =
        ((CircleNode.mk 0 0 10).y - (CircleNode.mk 15 0 10).y) *
          (((CircleNode.mk 0 0 10).radius + (CircleNode.mk 15 0 10).radius - sepDist (CircleNode.mk 0 0 10) (CircleNode.mk 15 0 10)) / (2 * sepDist (CircleNode.mk 0 0 10) (CircleNode.mk 15 0 10))) ∧
      0 < ((CircleNode.mk 0 0 10).radius + (CircleNode.mk 15 0 10).radius - sepDist (CircleNode.mk 0 0 10) (CircleNode.mk 15 0 10)) / (2 * sepDist (CircleNode.mk 0 0 10) (CircleNode.mk 15 0 10))) ∧
     Real.sqrt (((collideSeparate (CircleNode.mk 0 0 10) (CircleNode.mk 15 0 10)).1.x - (CircleNode.mk 0 0 10).x) ^ 2 +
        ((collideSeparate (CircleNode.mk 0 0 10) (CircleNode.mk 15 0 10)).1.y - (CircleNode.mk 0 0 10).y) ^ 2) =
       ((CircleNode.mk 0 0 10).radius + (CircleNode.mk 15 0 10).radius - sepDist (CircleNode.mk 0 0 10) (CircleNode.mk 15 0 10)) / 2 ∧
     sepDist (CircleNode.mk 0 0 10) (CircleNode.mk 15 0 10) < sepDist (collideSeparate (CircleNode.mk 0 0 10) (CircleNode.mk 15 0 10)).1 (collideSeparate (CircleNode.mk 0 0 10) (CircleNode.mk 15 0 10)).2) := by
  have hl : 0 < sepDist (CircleNode.mk 0 0 10) (CircleNode.mk 15 0 10) := by
    rw [sepDist_eq_of_sq (CircleNode.mk 0 0 10) (CircleNode.mk 15 0 10) 15 (by norm_num) (by norm_num)]
    norm_num
  have hr : sepDist (CircleNode.mk 0 0 10) (CircleNode.mk 15 0 10) <
      (CircleNode.mk 0 0 10).radius + (CircleNode.mk 15 0 10).radius := by
    rw [sepDist_eq_of_sq (CircleNode.mk 0 0 10) (CircleNode.mk 15 0 10) 15 (by norm_num) (by norm_num)]
    norm_num
  exact ⟨⟨hl, hr⟩, collideSeparate_symmetric (CircleNode.mk 0 0 10) (CircleNode.mk 15 0 10) hl hr⟩

/-- Claim C9: in exact arithmetic, one call on an overlapping pair with
`0 < l < r` leaves the centers at distance exactly
`r = node.radius + other.radius` and preserves their midpoint. -/
theorem collideSeparate_resolves (n p : CircleNode)
    (hl : 0 < sepDist n p) (hr : sepDist n p < n.radius + p.radius) :
    sepDist (collideSeparate n p).1 (collideSeparate n p).2 =
      n.radius + p.radius ∧
    (collideSeparate n p).1.x + (collideSeparate n p).2.x = n.x + p.x ∧
    (collideSeparate n p).1.y + (collideSeparate n p).2.y = n.y + p.y := by
  refine ⟨collideSeparate_sepDist n p hl hr, ?_⟩
  rw [collideSeparate_of_lt n p hr]
  exact ⟨by ring, by ring⟩

/-- Witness for claim C9 at the circles `(0, 0, radius 10)` and
`(15, 0, radius 10)`. -/
theorem collideSeparate_resolves_witness :
    (0 < sepDist (CircleNode.mk 0 0 10) (CircleNode.mk 15 0 10) ∧
     sepDist (CircleNode.mk 0 0 10) (CircleNode.mk 15 0 10) <
       (CircleNode.mk 0 0 10).radius + (CircleNode.mk 15 0 10).radius) ∧
    sepDist (collideSeparate (CircleNode.mk 0 0 10) (CircleNode.mk 15 0 10)).1
        (collideSeparate (CircleNode.mk 0 0 10) (CircleNode.mk 15 0 10)).2 =
      (CircleNode.mk 0 0 10).radius + (CircleNode.mk 15 0 10).radius ∧
    (collideSeparate (CircleNode.mk 0 0 10) (CircleNode.mk 15 0 10)).1.x +
        (collideSeparate (CircleNode.mk 0 0 10) (CircleNode.mk 15 0 10)).2.x =
      (CircleNode.mk 0 0 10).x + (CircleNode.mk 15 0 10).x ∧
    (collideSeparate (CircleNode.mk 0 0 10) (CircleNode.mk 15 0 10)).1.y +
        (collideSeparate (CircleNode.mk 0 0 10) (CircleNode.mk 15 0 10)).2.y =
      (CircleNode.mk 0 0 10).y + (CircleNode.mk 15 0 10).y := by
  have hsep : sepDist (CircleNode.mk 0 0 10) (CircleNode.mk 15 0 10) = 15 :=
    sepDist_eq_of_sq _ _ 15 (by norm_num) (by norm_num)
  have hl : 0 < sepDist (CircleNode.mk 0 0 10) (CircleNode.mk 15 0 10) := by
    rw [hsep]; norm_num
  have hr : sepDist (CircleNode.mk 0 0 10) (CircleNode.mk 15 0 10) <
      (CircleNode.mk 0 0 10).radius + (CircleNode.mk 15 0 10).radius := by
    rw [hsep]; norm_num
  exact ⟨⟨hl, hr⟩, collideSeparate_resolves _ _ hl hr⟩

/-- Claim C1, counterexample to the claim as stated: the options
`angle = π/2, scaleX = scaleY = 1, skewX = skewY = 0,
translateX = translateY = 0, flipX = true, flipY = false` satisfy the
claim's hypotheses (`skewY = 0`, `scaleX ≠ 0`, `angle` not a multiple
of π), yet `decomposeMatrix2X3 (composeMatrix2X3 o)` returns
`flipX = false` (not `o.flipX = true`) and `angle = -(π/2)` (not
`o.angle = π/2`): a lone x-flip composes to the same matrix as a
y-flip with rotation by π, and decomposition picks the latter. -/
theorem decompose_compose_flip_counterexample :
    (decomposeMatrix2X3 (composeMatrix2X3
        (TRANSFORM_OPTION.mk (π / 2) 1 1 0 0 0 0 true false))).flipX = false ∧
    (decomposeMatrix2X3 (composeMatrix2X3
        (TRANSFORM_OPTION.mk (π / 2) 1 1 0 0 0 0 true false))).angle =
      -(π / 2) := by
  have hpi2 : (π / 2 : ℝ) ≠ 0 := ne_of_gt (by positivity)
  have hc : composeMatrix2X3 (TRANSFORM_OPTION.mk (π / 2) 1 1 0 0 0 0 true false) =
      ⟨0, -1, -1, 0, 0, 0⟩ := by
    rw [composeMatrix2X3_explicit _ rfl hpi2]
    ext <;>
      simp [Real.cos_pi_div_two, Real.sin_pi_div_two, Real.tan_zero]
  have hat : atan2 (-1 : ℝ) 0 = -(π / 2) := by
    rw [atan2, if_neg (lt_irrefl 0), if_neg (lt_irrefl 0),
      if_neg (by norm_num : ¬(0 : ℝ) < -1), if_pos (by norm_num : (-1 : ℝ) < 0)]
  rw [hc]
  unfold decomposeMatrix2X3
  dsimp only
  rw [hat]
  norm_num [Real.sin_neg, Real.sin_pi_div_two]

/-- Claim C1 (amended): the claim holds as stated once restricted to
the family decomposition can represent: `skewY = 0`, `flipX = false`,
`0 < scaleX`, `0 < scaleY`, `angle` in the principal range `(-π, π)`
and nonzero (hence not a multiple of π), and `skewX` in
`(-π/2, π/2)`.  Then `decomposeMatrix2X3 (composeMatrix2X3 o) = o`
exactly: angle, scaleX (= its absolute value), scaleY, skewX,
translation, and both flip flags are all recovered. -/
theorem decompose_compose_roundtrip (o : TRANSFORM_OPTION)
    (hY : o.skewY = 0) (hfx : o.flipX = false)
    (hsx : 0 < o.scaleX) (hsy : 0 < o.scaleY)
    (ha1 : -π < o.angle) (ha2 : o.angle < π) (ha0 : o.angle ≠ 0)
    (hk1 : -(π / 2) < o.skewX) (hk2 : o.skewX < π / 2) :
    decomposeMatrix2X3 (composeMatrix2X3 o) = o := by
  rw [composeMatrix2X3_explicit o hY ha0]
  simp only [hfx, Bool.false_eq_true, if_false]
  rw [decomposeMatrix2X3_explicit o.scaleX (if o.flipY then -o.scaleY else o.scaleY)
    o.angle o.skewX o.translateX o.translateY hsx ha1 ha2 ha0 hk1 hk2]
  refine TRANSFORM_OPTION.ext rfl rfl ?_ rfl hY.symm rfl rfl hfx.symm ?_
  · by_cases hfy : o.flipY = true
    · rw [if_pos hfy, abs_neg, abs_of_pos hsy]
    · rw [if_neg hfy, abs_of_pos hsy]
  · by_cases hfy : o.flipY = true
    · rw [if_pos hfy, if_neg (not_lt.2 (by linarith : -o.scaleY ≤ 0))]
      exact hfy.symm
    · rw [if_neg hfy, if_pos hsy]
      exact (Bool.eq_false_iff.mpr hfy).symm

/-- Witness for the amended claim C1 at the concrete options
`angle = π/2, scaleX = 2, scaleY = 3, skewX = skewY = 0,
translateX = 5, translateY = 7, flipX = flipY = false`. -/
theorem decompose_compose_roundtrip_witness :
    (TRANSFORM_OPTION.mk (π / 2) 2 3 0 0 5 7 false false).skewY = 0 ∧
    decomposeMatrix2X3 (composeMatrix2X3
        (TRANSFORM_OPTION.mk (π / 2) 2 3 0 0 5 7 false false)) =
      TRANSFORM_OPTION.mk (π / 2) 2 3 0 0 5 7 false false :=
  ⟨rfl,
   decompose_compose_roundtrip (TRANSFORM_OPTION.mk (π / 2) 2 3 0 0 5 7 false false)
     rfl rfl (by norm_num) (by norm_num)
     (by linarith [Real.pi_pos] : -π < π / 2)
     (by linarith [Real.pi_pos] : π / 2 < π)
     (ne_of_gt (by positivity))
     (by linarith [Real.pi_pos] : -(π / 2) < 0)
     (by linarith [Real.pi_pos] : (0 : ℝ) < π / 2)⟩

end
